import Mathlib

/-!
Verification of the interactive training-deck program
(`fm_training_storyline_interactive_html_deck.jsx`).

The file shallowly embeds the two state-bearing pieces of the program —
the deck navigator (current slide index, keyboard binding, prev/next
buttons, jump grid) and the one-minute countdown timer — and proves the
behavioural properties stated in the specification.

JavaScript numbers that only ever hold integral values are modelled as
`Int`; booleans as `Bool`; strings as `String` (parsed through their
character lists); the React effect/cleanup mechanism of each widget is
modelled as an explicit step function on a widget state that records,
besides the `useState` fields, whether the widget is mounted and whether
a `setTimeout` callback is currently pending.
-/

namespace DeckProgram

/-! ### Deck navigation (source: `Deck`, line 759)

`const go = (d) => setIdx((i) => Math.max(0, Math.min(total-1, i + d)));`
-/

/-- Embedding of `go`: `Math.max(0, Math.min(total-1, i + d))`. -/
def go (total : Nat) (d i : Int) : Int :=
  max 0 (min ((total : Int) - 1) (i + d))

/-- A finite sequence of `go` calls (`step` requests), applied in order. -/
def goSeq (total : Nat) (ds : List Int) (i : Int) : Int :=
  ds.foldl (fun j d => go total d j) i

/-- Written from the specification's words: `clamp(x, lo, hi)`. -/
def clampSpec (x lo hi : Int) : Int :=
  max lo (min hi x)

/-! ### Prev/Next buttons (source: `Deck`, lines 779-780)

`<Button onClick={() => go(-1)} disabled={idx===0}>` and
`<Button onClick={() => go(1)} disabled={idx===total-1}>`.
-/

/-- Embedding of the Prev button's `disabled={idx===0}`. -/
def prevDisabled (i : Int) : Bool :=
  decide (i = 0)

/-- Embedding of the Next button's `disabled={idx===total-1}`. -/
def nextDisabled (total : Nat) (i : Int) : Bool :=
  decide (i = (total : Int) - 1)

/-! ### Keyboard binding (source: `Deck`, lines 760-767)

The effect has an empty dependency list, so its body runs once per mount
(adding `onKey` as a `keydown` listener) and its cleanup once per unmount
(removing it).  `onKey` runs `go(1)` on `"ArrowRight"` and `go(-1)` on
`"ArrowLeft"`.
-/

/-- Embedding of the `onKey` handler body: the two `if` statements run in
sequence on the functional-update index. -/
def onKey (total : Nat) (k : String) (i : Int) : Int :=
  let i1 := if k = "ArrowRight" then go total 1 i else i
  if k = "ArrowLeft" then go total (-1) i1 else i1

/-- A `keydown` event dispatches to every installed copy of the handler. -/
def dispatch (total : Nat) (k : String) : Nat → Int → Int
  | 0, i => i
  | n + 1, i => dispatch total k n (onKey total k i)

/-- Deck widget state: the `useState` index plus the mount status and the
number of installed `keydown` handler copies. -/
structure DeckState where
  idx : Int
  listeners : Nat
  mounted : Bool
  deriving DecidableEq, Repr

/-- Deck events: a key press, unmounting the deck view, mounting it again. -/
inductive DeckEv where
  | key (k : String)
  | unmount
  | remount
  deriving DecidableEq, Repr

/-- Deck step function.  A key press runs the handler once per installed
listener copy; unmount runs the effect cleanup (`removeEventListener`);
remount starts a fresh component instance (`useState(0)`) whose mount
effect runs `addEventListener` once. -/
def deckStep (total : Nat) (s : DeckState) : DeckEv → DeckState
  | .key k => { s with idx := dispatch total k s.listeners s.idx }
  | .unmount =>
      if s.mounted then { s with mounted := false, listeners := s.listeners - 1 }
      else s
  | .remount =>
      if s.mounted then s
      else { idx := 0, listeners := s.listeners + 1, mounted := true }

/-- Freshly mounted deck: `useState(0)`, mount effect installed the listener. -/
def deckInit : DeckState :=
  { idx := 0, listeners := 1, mounted := true }

/-- Deck state reached from a fresh mount by a finite event sequence. -/
def deckRun (total : Nat) (evs : List DeckEv) : DeckState :=
  evs.foldl (deckStep total) deckInit

/-! ### Slide titles (source: the `slides` array, lines 138-735)

Only the `title` strings matter to the verified claims; the rendered
content is opaque view data. -/

/-- The 22 `title` fields of the `slides` array, in array order. -/
def slideTitles : List String :=
  [ "Section 1 — Foundations (FMM, Principles, Objectives)"
  , "Slide 1 — Title & Session Map"
  , "Slide 2 — Why Data Collection Matters"
  , "Slide 3 — Principles & Objectives of Field Monitoring"
  , "Section 2 — Data Collection Methods"
  , "Slide 4 — Overview of Methods"
  , "Slide 5 — KII: Definition & Process"
  , "Slide 7 — FGD: Definition & Process"
  , "Slide 9 — Observation: Definition & Process"
  , "Section 3 — Ethics & Safeguarding"
  , "Slide 11 — Core Ethics"
  , "Slide 12 — Consent & Confidentiality"
  , "Slide 13 — Child Safeguarding"
  , "Slide 14 — Referral Mechanisms"
  , "Section 4 — Field Monitoring Framework & Tools"
  , "Slide 15 — FM Process (End-to-End)"
  , "Slide 16 — Monitoring Types & What to Monitor"
  , "Slide 17 — Mapping FM Questions to Methods (Triangulation Map)"
  , "Section 5 — Wrap-Up"
  , "Slide 18 — Key Takeaways"
  , "Slide 19 — Resources (added back; previously omitted by others)"
  , "Appendix — Meta-Insights (Facilitator)"
  ]

/-! ### Jump-grid title parsing (source: `Deck`, lines 815-816)

`{s.title.replace(/ — .*/, "")}` and
`{s.title.includes("Slide") ? s.title.split(" — ")[1] : "Section"}`.
-/

/-- Whether `pat` is an initial run of `txt`. -/
def leadsWith : List Char → List Char → Bool
  | [], _ => true
  | _ :: _, [] => false
  | a :: as, b :: bs => a == b && leadsWith as bs

/-- Whether `pat` occurs contiguously inside `txt` (JavaScript `includes`). -/
def hasSubstring (pat : List Char) : List Char → Bool
  | [] => leadsWith pat []
  | c :: rest => leadsWith pat (c :: rest) || hasSubstring pat rest

/-- Splits `txt` at the first occurrence of `sep`: the text before it and
the text after it, or `none` when `sep` does not occur. -/
def splitFirst (sep : List Char) : List Char → Option (List Char × List Char)
  | [] => if leadsWith sep [] then some ([], []) else none
  | c :: rest =>
      if leadsWith sep (c :: rest) then some ([], (c :: rest).drop sep.length)
      else (splitFirst sep rest).map fun p => (c :: p.1, p.2)

/-- The em-dash separator `" — "` used by the jump grid. -/
def emSep : List Char := " — ".data

/-- Embedding of the short label `s.title.replace(/ — .*/, "")`: the regex
deletes everything from the first `" — "` on (titles contain no newline),
leaving the text before the first separator; a title without the separator
is left whole. -/
def jumpLabel (t : String) : String :=
  match splitFirst emSep t.data with
  | some p => String.mk p.1
  | none => t

/-- Embedding of the subtitle
`s.title.includes("Slide") ? s.title.split(" — ")[1] : "Section"`.
`split(" — ")[1]` is the segment between the first and second occurrence
of the separator; `none` models the JavaScript `undefined` read past the
end of the split array. -/
def jumpSubtitle (t : String) : Option String :=
  if hasSubstring "Slide".data t.data then
    match splitFirst emSep t.data with
    | none => none
    | some p =>
        some (String.mk (match splitFirst emSep p.2 with
          | none => p.2
          | some q => q.1))
  else some "Section"

/-- Written from the specification's words: the text before the em-dash
separator. -/
def specLabel (t : String) : String :=
  match splitFirst emSep t.data with
  | some p => String.mk p.1
  | none => t

/-- Written from the specification's words: the text after the em-dash
separator. -/
def specSubtitle (t : String) : Option String :=
  (splitFirst emSep t.data).map fun p => String.mk p.2

/-! ### Countdown timer (source: `OneMinuteTimer`, lines 88-106)

```
const [seconds, setSeconds] = useState(60);
const [running, setRunning] = useState(false);
useEffect(() => {
  if (!running) return;
  if (seconds === 0) return;
  const id = setTimeout(() => setSeconds((s) => s - 1), 1000);
  return () => clearTimeout(id);
}, [seconds, running]);
const reset = () => { setSeconds(60); setRunning(false); };
```

The effect depends on `[seconds, running]`: after any commit in which one
of them changed (and on mount), the previous effect's cleanup runs
(`clearTimeout`, dropping the pending callback) and then the body runs,
arming a fresh one-second callback exactly when `running && seconds !== 0`.
On unmount only the cleanup runs.  `pending` records whether an armed
callback exists. -/

/-- Timer widget state: the two `useState` fields plus the pending-timeout
and mount bookkeeping of the effect. -/
structure TimerState where
  seconds : Int
  running : Bool
  pending : Bool
  mounted : Bool
  deriving DecidableEq, Repr

/-- Timer events: the three buttons, an armed timeout firing after its one
second elapses, and unmounting the widget. -/
inductive TimerEv where
  | start
  | pause
  | reset
  | tick
  | unmount
  deriving DecidableEq, Repr

/-- One run of the effect: cleanup (`clearTimeout`) followed by the body,
which returns early when `!running` or `seconds === 0` and otherwise arms
a new timeout. -/
def runEffect (s : TimerState) : TimerState :=
  let s1 : TimerState := { s with pending := false }
  if s1.running = false then s1
  else if s1.seconds = 0 then s1
  else { s1 with pending := true }

/-- The effect's dependency list `[seconds, running]`. -/
def deps (s : TimerState) : Int × Bool :=
  (s.seconds, s.running)

/-- React commit: apply the state update; the effect re-runs exactly when
its dependencies changed. -/
def commit (s t : TimerState) : TimerState :=
  if deps t = deps s then t else runEffect t

/-- Timer step function.  The buttons exist only while the widget is
mounted; a tick can fire only while a callback is pending (the fired
callback is consumed, `setSeconds(s - 1)` commits, and the effect re-runs
because `seconds` changed); unmount runs only the cleanup. -/
def timerStep (s : TimerState) : TimerEv → TimerState
  | .start => if s.mounted then commit s { s with running := true } else s
  | .pause => if s.mounted then commit s { s with running := false } else s
  | .reset => if s.mounted then commit s { s with seconds := 60, running := false } else s
  | .tick =>
      if s.pending then commit s { s with pending := false, seconds := s.seconds - 1 }
      else s
  | .unmount => { s with pending := false, mounted := false }

/-- Freshly mounted timer: `useState(60)`, `useState(false)`, then the
mount run of the effect (which returns early since `running` is false). -/
def timerInit : TimerState :=
  runEffect { seconds := 60, running := false, pending := false, mounted := true }

/-- Timer state reached from a fresh mount by a finite event sequence. -/
def timerRun (evs : List TimerEv) : TimerState :=
  evs.foldl timerStep timerInit

/-! ### Timer display (source: `OneMinuteTimer`, line 103)

`{String(Math.floor(seconds/60)).padStart(1,"0")}:{String(seconds%60).padStart(2,"0")}` -/

/-- JavaScript `String.prototype.padStart`: left-pad with `c` up to
length `w`. -/
def padStart (s : String) (w : Nat) (c : Char) : String :=
  if w ≤ s.length then s else String.mk (List.replicate (w - s.length) c) ++ s

/-- Embedding of the rendered timer text.  `Int.fdiv` is JavaScript's
`Math.floor(seconds/60)`; on the nonnegative values the timer holds,
`Int.emod` agrees with JavaScript's `seconds % 60`. -/
def formatTimer (sec : Int) : String :=
  padStart (toString (Int.fdiv sec 60)) 1 '0' ++ ":"
    ++ padStart (toString (Int.emod sec 60)) 2 '0'

/-- Written from the specification's words: `floor(remaining/60)`
zero-padded to width 1, a colon, and `remaining % 60` zero-padded to
width 2. -/
def specFormat (n : Nat) : String :=
  let m := toString (n / 60)
  let r := toString (n % 60)
  (if m.length < 1 then String.mk (List.replicate (1 - m.length) '0') ++ m else m)
    ++ ":"
    ++ (if r.length < 2 then String.mk (List.replicate (2 - r.length) '0') ++ r else r)

/-! ### Invariants -/

/-- Deck widget invariant: exactly one keyboard handler while mounted,
none after unmount. -/
def DeckInv (s : DeckState) : Prop :=
  s.listeners = if s.mounted then 1 else 0

/-- Timer widget invariant: a callback is pending exactly while the
mounted widget is running with a nonzero count, and the count stays in
`[0, 60]`. -/
def TimerInv (s : TimerState) : Prop :=
  (s.pending = true ↔ s.mounted = true ∧ s.running = true ∧ s.seconds ≠ 0)
  ∧ 0 ≤ s.seconds ∧ s.seconds ≤ 60

/-! ### Helper lemmas -/

theorem foldl_inv {α σ : Type} (P : σ → Prop) (f : σ → α → σ)
    (hf : ∀ s a, P s → P (f s a)) :
    ∀ (l : List α) (s : σ), P s → P (l.foldl f s) := by
  intro l
  induction l with
  | nil => intro s hs; exact hs
  | cons a l ih => intro s hs; exact ih (f s a) (hf s a hs)

theorem foldl_fixed {α σ : Type} (f : σ → α → σ) (s : σ)
    (hf : ∀ a, f s a = s) : ∀ l : List α, l.foldl f s = s := by
  intro l
  induction l with
  | nil => rfl
  | cons a l ih => simp [List.foldl, hf a, ih]

theorem go_mem (total : Nat) (ht : 1 ≤ total) (d i : Int) :
    0 ≤ go total d i ∧ go total d i ≤ (total : Int) - 1 := by
  unfold go; constructor <;> omega

theorem goSeq_mem (total : Nat) (ds : List Int) (i : Int)
    (h0 : 0 ≤ i) (h1 : i ≤ (total : Int) - 1) :
    0 ≤ goSeq total ds i ∧ goSeq total ds i ≤ (total : Int) - 1 := by
  induction ds generalizing i with
  | nil => exact ⟨h0, h1⟩
  | cons d ds ih =>
      have ht : 1 ≤ total := by omega
      have hm := go_mem total ht d i
      simpa [goSeq, List.foldl] using ih (go total d i) hm.1 hm.2

theorem goSeq_replicate_one (total : Nat) (n : Nat) (i : Int)
    (h0 : 0 ≤ i) (h1 : i ≤ (total : Int) - 1) :
    goSeq total (List.replicate n 1) i = min ((total : Int) - 1) (i + n) := by
  induction n generalizing i with
  | zero => simp [goSeq, List.foldl]; omega
  | succ n ih =>
      have ht : 1 ≤ total := by omega
      have hm := go_mem total ht 1 i
      have hstep : goSeq total (List.replicate (n + 1) 1) i
          = goSeq total (List.replicate n 1) (go total 1 i) := by
        simp [goSeq, List.replicate, List.foldl]
      rw [hstep, ih (go total 1 i) hm.1 hm.2]
      unfold go
      omega

theorem timerStep_inv (s : TimerState) (e : TimerEv) (h : TimerInv s) :
    TimerInv (timerStep s e) := by
  obtain ⟨sec, run, pend, mnt⟩ := s
  obtain ⟨hp, h0, h1⟩ := h
  simp only [TimerInv] at *
  cases e <;>
    cases run <;> cases pend <;> cases mnt <;>
      by_cases hsec : sec = 0 <;>
        simp_all [timerStep, commit, deps, runEffect] <;>
          split_ifs at * <;> simp_all <;> omega

theorem timerInit_inv : TimerInv timerInit := by
  constructor
  · decide
  · decide

theorem timerRun_inv (evs : List TimerEv) : TimerInv (timerRun evs) :=
  foldl_inv TimerInv timerStep timerStep_inv evs timerInit timerInit_inv

theorem timerStep_zero_seconds (s : TimerState) (e : TimerEv) (h : TimerInv s)
    (hz : s.seconds = 0) (hne : e ≠ TimerEv.reset) :
    (timerStep s e).seconds = 0 := by
  obtain ⟨sec, run, pend, mnt⟩ := s
  obtain ⟨hp, h0, h1⟩ := h
  simp only at hz
  subst hz
  cases e <;>
    cases run <;> cases pend <;> cases mnt <;>
      simp_all [timerStep, commit, deps, runEffect]

theorem timerStep_fixed (s : TimerState) (e : TimerEv)
    (hm : s.mounted = false) (hp : s.pending = false) :
    timerStep s e = s := by
  obtain ⟨sec, run, pend, mnt⟩ := s
  simp only at hm hp
  subst hm; subst hp
  cases e <;> simp [timerStep]

theorem deckStep_inv (total : Nat) (s : DeckState) (e : DeckEv) (h : DeckInv s) :
    DeckInv (deckStep total s e) := by
  obtain ⟨i, n, m⟩ := s
  simp only [DeckInv] at *
  cases e <;> cases m <;> simp_all [deckStep]

theorem deckRun_inv (total : Nat) (evs : List DeckEv) : DeckInv (deckRun total evs) :=
  foldl_inv DeckInv (deckStep total) (deckStep_inv total) evs deckInit (by simp [DeckInv, deckInit])

theorem deckStep_key_fixed (total : Nat) (s : DeckState) (k : String)
    (hl : s.listeners = 0) : deckStep total s (.key k) = s := by
  obtain ⟨i, n, m⟩ := s
  simp only at hl
  subst hl
  simp [deckStep, dispatch]

/-! ### The verified claims -/

/-- C1: `step(delta)` sets the index to `clamp(currentIndex + delta, 0,
slideCount-1)`; it is a no-op at either boundary for an outward delta;
every finite sequence of `step` calls from a valid index stays in
`[0, slideCount-1]`; and `step(+1)` applied `slideCount` times from index
0 saturates at `slideCount-1`. -/
theorem go_clamps_and_saturates (total : Nat) (i d e1 e2 : Int) (ds : List Int)
    (h0 : 0 ≤ i) (h1 : i ≤ (total : Int) - 1) (he1 : e1 ≤ 0) (he2 : 0 ≤ e2) :
    go total d i = clampSpec (i + d) 0 ((total : Int) - 1)
    ∧ go total e1 0 = 0
    ∧ go total e2 ((total : Int) - 1) = (total : Int) - 1
    ∧ 0 ≤ goSeq total ds i ∧ goSeq total ds i ≤ (total : Int) - 1
    ∧ goSeq total (List.replicate total 1) 0 = (total : Int) - 1 := by
  have ht : 1 ≤ total := by omega
  have hb := goSeq_mem total ds i h0 h1
  have hr := goSeq_replicate_one total total 0 le_rfl (by omega)
  refine ⟨rfl, ?_, ?_, hb.1, hb.2, ?_⟩
  · unfold go; omega
  · unfold go; omega
  · rw [hr]; omega

/-- Witness for C1 at the deck's actual slide count (22 slides). -/
theorem go_clamps_and_saturates_witness :
    go 22 100 3 = clampSpec (3 + 100) 0 ((22 : Int) - 1)
    ∧ go 22 (-5) 0 = 0
    ∧ go 22 7 ((22 : Int) - 1) = (22 : Int) - 1
    ∧ 0 ≤ goSeq 22 [2, -9, 100] 3 ∧ goSeq 22 [2, -9, 100] 3 ≤ (22 : Int) - 1
    ∧ goSeq 22 (List.replicate 22 1) 0 = (22 : Int) - 1 :=
  go_clamps_and_saturates 22 3 100 (-5) 7 [2, -9, 100]
    (by decide) (by decide) (by decide) (by decide)

/-- C8: while the deck is mounted there is exactly one installed keyboard
handler; a right-arrow key event applies `go(1)` to the index and a
left-arrow key event applies `go(-1)`; and after unmount any key event
leaves the state unchanged. -/
theorem deck_keyboard_binding (total : Nat) (evs : List DeckEv) (k : String)
    (hm : (deckRun total evs).mounted = true) :
    (deckRun total evs).listeners = 1
    ∧ (deckStep total (deckRun total evs) (.key "ArrowRight")).idx
        = go total 1 (deckRun total evs).idx
    ∧ (deckStep total (deckRun total evs) (.key "ArrowLeft")).idx
        = go total (-1) (deckRun total evs).idx
    ∧ deckStep total (deckStep total (deckRun total evs) .unmount) (.key k)
        = deckStep total (deckRun total evs) .unmount := by
  have hinv := deckRun_inv total evs
  rw [DeckInv, hm] at hinv
  simp only [if_pos rfl] at hinv
  refine ⟨hinv, ?_, ?_, ?_⟩
  · simp [deckStep, hinv, dispatch, onKey]
  · simp [deckStep, hinv, dispatch, onKey]
  · exact deckStep_key_fixed total _ k (by simp [deckStep, hm, hinv])

/-- Witness for C8 on the freshly mounted deck. -/
theorem deck_keyboard_binding_witness :
    (deckRun 22 []).listeners = 1
    ∧ (deckStep 22 (deckRun 22 []) (.key "ArrowRight")).idx
        = go 22 1 (deckRun 22 []).idx
    ∧ (deckStep 22 (deckRun 22 []) (.key "ArrowLeft")).idx
        = go 22 (-1) (deckRun 22 []).idx
    ∧ deckStep 22 (deckStep 22 (deckRun 22 []) .unmount) (.key "a")
        = deckStep 22 (deckRun 22 []) .unmount :=
  deck_keyboard_binding 22 [] "a" (by decide)

/-- C10: the Prev button is disabled exactly at index 0 and the Next
button exactly at index `slideCount-1`; a click on an enabled Prev or
Next button therefore always moves strictly (by one) and never reaches
the clamp. -/
theorem nav_buttons_disabled_iff_boundary (total : Nat) (i j1 j2 : Int)
    (h0 : 0 ≤ i) (h1 : i ≤ (total : Int) - 1)
    (hj10 : 0 ≤ j1) (hj11 : j1 ≤ (total : Int) - 1) (hp : prevDisabled j1 = false)
    (hj20 : 0 ≤ j2) (hj21 : j2 ≤ (total : Int) - 1) (hn : nextDisabled total j2 = false) :
    (prevDisabled i = true ↔ i = 0)
    ∧ (nextDisabled total i = true ↔ i = (total : Int) - 1)
    ∧ go total (-1) j1 = j1 - 1
    ∧ go total 1 j2 = j2 + 1 := by
  simp only [prevDisabled, decide_eq_false_iff_not] at hp
  simp only [nextDisabled, decide_eq_false_iff_not] at hn
  refine ⟨by simp [prevDisabled], by simp [nextDisabled], ?_, ?_⟩
  · unfold go; omega
  · unfold go; omega

/-- Witness for C10 at the deck's slide count, at an interior index. -/
theorem nav_buttons_disabled_iff_boundary_witness :
    (prevDisabled 0 = true ↔ (0 : Int) = 0)
    ∧ (nextDisabled 22 0 = true ↔ (0 : Int) = (22 : Int) - 1)
    ∧ go 22 (-1) 5 = 5 - 1
    ∧ go 22 1 5 = 5 + 1 :=
  nav_buttons_disabled_iff_boundary 22 0 5 5
    (by decide) (by decide) (by decide) (by decide) (by decide)
    (by decide) (by decide) (by decide)

theorem timerRun_append (evs more : List TimerEv) :
    timerRun (evs ++ more) = more.foldl timerStep (timerRun evs) := by
  simp [timerRun, List.foldl_append]

theorem timerStep_tick_dec (s : TimerState) (hpend : s.pending = true) :
    (timerStep s .tick).seconds = s.seconds - 1
    ∧ ((timerStep s .tick).pending = true → (timerStep s .tick).running = true) := by
  obtain ⟨sec, run, pend, mnt⟩ := s
  simp only at hpend
  subst hpend
  cases run <;>
    simp_all [timerStep, commit, deps, runEffect] <;>
      split_ifs <;> simp_all <;> omega

theorem timer_zero_stable (s : TimerState) (more : List TimerEv)
    (hinv : TimerInv s) (hz : s.seconds = 0) (hnr : TimerEv.reset ∉ more) :
    (more.foldl timerStep s).seconds = 0 ∧ TimerInv (more.foldl timerStep s) := by
  induction more generalizing s with
  | nil => exact ⟨hz, hinv⟩
  | cons e more ih =>
      simp only [List.mem_cons, not_or] at hnr
      obtain ⟨hne1, hnr2⟩ := hnr
      have hne : e ≠ TimerEv.reset := fun h => hne1 h.symm
      have h1 := timerStep_zero_seconds s e hinv hz hne
      have h2 := timerStep_inv s e hinv
      simpa [List.foldl] using ih (timerStep s e) h2 h1 hnr2

theorem timerStep_pause_pending (s : TimerState) (hinv : TimerInv s) :
    (timerStep s .pause).pending = false := by
  obtain ⟨sec, run, pend, mnt⟩ := s
  obtain ⟨hp, h0, h1⟩ := hinv
  cases run <;> cases pend <;> cases mnt <;>
    simp_all [timerStep, commit, deps, runEffect] <;>
      split_ifs <;> simp_all

theorem timerStep_reset_pending (s : TimerState) (hinv : TimerInv s) :
    (timerStep s .reset).pending = false := by
  obtain ⟨sec, run, pend, mnt⟩ := s
  obtain ⟨hp, h0, h1⟩ := hinv
  cases run <;> cases pend <;> cases mnt <;>
    simp_all [timerStep, commit, deps, runEffect] <;>
      split_ifs <;> simp_all

/-- C2: whenever the mounted timer is running with a positive count, the
elapsed one-second interval (the armed callback firing) decrements
`remaining` by exactly one, and the post-decrement state has a newly
armed callback only if it is still running; in particular `start()`
followed by three ticks yields `remaining = 57` and `running = true`. -/
theorem timer_tick_rule (evs : List TimerEv)
    (hm : (timerRun evs).mounted = true)
    (hr : (timerRun evs).running = true)
    (hpos : 0 < (timerRun evs).seconds) :
    (timerStep (timerRun evs) .tick).seconds = (timerRun evs).seconds - 1
    ∧ ((timerStep (timerRun evs) .tick).pending = true →
        (timerStep (timerRun evs) .tick).running = true)
    ∧ (timerRun [.start, .tick, .tick, .tick]).seconds = 57
    ∧ (timerRun [.start, .tick, .tick, .tick]).running = true := by
  have hinv := timerRun_inv evs
  have hpend : (timerRun evs).pending = true := hinv.1.mpr ⟨hm, hr, by omega⟩
  have hd := timerStep_tick_dec (timerRun evs) hpend
  exact ⟨hd.1, hd.2, by decide, by decide⟩

/-- Witness for C2: the timer right after `start()`. -/
theorem timer_tick_rule_witness :
    (timerStep (timerRun [.start]) .tick).seconds = (timerRun [.start]).seconds - 1
    ∧ ((timerStep (timerRun [.start]) .tick).pending = true →
        (timerStep (timerRun [.start]) .tick).running = true)
    ∧ (timerRun [.start, .tick, .tick, .tick]).seconds = 57
    ∧ (timerRun [.start, .tick, .tick, .tick]).running = true :=
  timer_tick_rule [.start] (by decide) (by decide) (by decide)

/-- C3: every reachable timer state has `0 ≤ remainingSeconds ≤ 60`; in a
reachable state with `remaining = 0` no callback is pending, and under
any further events that do not include the manual Reset button the value
stays 0 with no callback ever pending. -/
theorem timer_bounds_and_zero_halt (evs more : List TimerEv)
    (hz : (timerRun evs).seconds = 0) (hnr : TimerEv.reset ∉ more) :
    (∀ evs2 : List TimerEv,
        0 ≤ (timerRun evs2).seconds ∧ (timerRun evs2).seconds ≤ 60)
    ∧ (timerRun evs).pending = false
    ∧ (timerRun (evs ++ more)).seconds = 0
    ∧ (timerRun (evs ++ more)).pending = false := by
  have hinv := timerRun_inv evs
  have hstable := timer_zero_stable (timerRun evs) more hinv hz hnr
  refine ⟨fun evs2 => ⟨(timerRun_inv evs2).2.1, (timerRun_inv evs2).2.2⟩, ?_, ?_, ?_⟩
  · cases hpc : (timerRun evs).pending
    · rfl
    · exact absurd hz (hinv.1.mp hpc).2.2
  · rw [timerRun_append]; exact hstable.1
  · rw [timerRun_append]
    cases hpc : (more.foldl timerStep (timerRun evs)).pending
    · rfl
    · exact absurd hstable.1 (hstable.2.1.mp hpc).2.2

set_option maxRecDepth 100000 in
/-- Witness for C3: the timer after `start()` and sixty elapsed ticks. -/
theorem timer_bounds_and_zero_halt_witness :
    (∀ evs2 : List TimerEv,
        0 ≤ (timerRun evs2).seconds ∧ (timerRun evs2).seconds ≤ 60)
    ∧ (timerRun (TimerEv.start :: List.replicate 60 .tick)).pending = false
    ∧ (timerRun ((TimerEv.start :: List.replicate 60 .tick)
        ++ [.start, .tick, .pause])).seconds = 0
    ∧ (timerRun ((TimerEv.start :: List.replicate 60 .tick)
        ++ [.start, .tick, .pause])).pending = false :=
  timer_bounds_and_zero_halt (TimerEv.start :: List.replicate 60 .tick)
    [.start, .tick, .pause] (by decide) (by decide)

/-- C4: from any mounted timer state, `reset()` yields `remaining = 60`
and `running = false`. -/
theorem timer_reset_spec (s : TimerState) (hm : s.mounted = true) :
    (timerStep s .reset).seconds = 60 ∧ (timerStep s .reset).running = false := by
  obtain ⟨sec, run, pend, mnt⟩ := s
  simp only at hm
  subst hm
  cases run <;>
    simp_all [timerStep, commit, deps, runEffect] <;>
      split_ifs <;> simp_all

/-- Witness for C4: reset on the freshly mounted timer. -/
theorem timer_reset_spec_witness :
    (timerStep timerInit .reset).seconds = 60
    ∧ (timerStep timerInit .reset).running = false :=
  timer_reset_spec timerInit (by decide)

/-- C5: `pause()` from any mounted timer state sets `running = false` and
preserves `remaining`; concretely, pausing after two ticks holds the
value at 58, a later `start()` resumes from 58 (not 60), and the next
tick then reaches 57. -/
theorem timer_pause_preserves_remaining (s : TimerState) (hm : s.mounted = true) :
    (timerStep s .pause).running = false
    ∧ (timerStep s .pause).seconds = s.seconds
    ∧ (timerRun [.start, .tick, .tick, .pause]).seconds = 58
    ∧ (timerRun [.start, .tick, .tick, .pause]).running = false
    ∧ (timerRun [.start, .tick, .tick, .pause, .start]).seconds = 58
    ∧ (timerRun [.start, .tick, .tick, .pause, .start]).running = true
    ∧ (timerRun [.start, .tick, .tick, .pause, .start, .tick]).seconds = 57 := by
  obtain ⟨sec, run, pend, mnt⟩ := s
  simp only at hm
  subst hm
  refine ⟨?_, ?_, by decide, by decide, by decide, by decide, by decide⟩
  · cases run <;>
      simp_all [timerStep, commit, deps, runEffect] <;>
        split_ifs <;> simp_all
  · cases run <;>
      simp_all [timerStep, commit, deps, runEffect] <;>
        split_ifs <;> simp_all

/-- Witness for C5: pause on the freshly mounted timer. -/
theorem timer_pause_preserves_remaining_witness :
    (timerStep timerInit .pause).running = false
    ∧ (timerStep timerInit .pause).seconds = timerInit.seconds
    ∧ (timerRun [.start, .tick, .tick, .pause]).seconds = 58
    ∧ (timerRun [.start, .tick, .tick, .pause]).running = false
    ∧ (timerRun [.start, .tick, .tick, .pause, .start]).seconds = 58
    ∧ (timerRun [.start, .tick, .tick, .pause, .start]).running = true
    ∧ (timerRun [.start, .tick, .tick, .pause, .start, .tick]).seconds = 57 :=
  timer_pause_preserves_remaining timerInit (by decide)

/-- C6: for every `remaining` in `[0, 60]` the rendered timer text is
`floor(remaining/60)` zero-padded to width 1, a colon, and
`remaining % 60` zero-padded to width 2; in particular 60 renders as
"1:00" and 5 as "0:05". -/
theorem timer_display_format (sec : Int) (h0 : 0 ≤ sec) (h1 : sec ≤ 60) :
    formatTimer sec = specFormat sec.toNat
    ∧ formatTimer 60 = "1:00"
    ∧ formatTimer 5 = "0:05" := by
  have key : ∀ n : Nat, n < 61 → formatTimer ((n : Nat) : Int) = specFormat n := by decide
  have hsec : sec = ((sec.toNat : Nat) : Int) := by omega
  refine ⟨?_, by decide, by decide⟩
  nth_rewrite 1 [hsec]
  exact key sec.toNat (by omega)

/-- Witness for C6 at `remaining = 60`. -/
theorem timer_display_format_witness :
    formatTimer 60 = specFormat (60 : Int).toNat
    ∧ formatTimer 60 = "1:00"
    ∧ formatTimer 5 = "0:05" :=
  timer_display_format 60 (by decide) (by decide)

/-- C7: the armed callback is released on every exit path — after
unmount nothing is pending and every later event leaves the state
unchanged (so no callback ever fires after teardown), after `pause()` or
`reset()` from any reachable state nothing is pending, and in a
reachable state whose count reached zero nothing is pending. -/
theorem timer_no_dangling_callback (evs evs0 more : List TimerEv)
    (hz : (timerRun evs0).seconds = 0) :
    (timerRun (evs ++ [.unmount])).pending = false
    ∧ timerRun (evs ++ .unmount :: more) = timerRun (evs ++ [.unmount])
    ∧ (timerStep (timerRun evs) .pause).pending = false
    ∧ (timerStep (timerRun evs) .reset).pending = false
    ∧ (timerRun evs0).pending = false := by
  have hinv := timerRun_inv evs
  have hinv0 := timerRun_inv evs0
  have hu : timerRun (evs ++ [.unmount]) = timerStep (timerRun evs) .unmount := by
    rw [timerRun_append]; rfl
  have hum : (timerStep (timerRun evs) .unmount).mounted = false := by
    simp [timerStep]
  have hup : (timerStep (timerRun evs) .unmount).pending = false := by
    simp [timerStep]
  refine ⟨?_, ?_, ?_, ?_, ?_⟩
  · rw [hu]; exact hup
  · have h2 : timerRun (evs ++ .unmount :: more)
        = more.foldl timerStep (timerStep (timerRun evs) .unmount) := by
      rw [timerRun_append]; rfl
    rw [h2, foldl_fixed timerStep _ (fun e => timerStep_fixed _ e hum hup) more, hu]
  · exact timerStep_pause_pending (timerRun evs) hinv
  · exact timerStep_reset_pending (timerRun evs) hinv
  · cases hpc : (timerRun evs0).pending
    · rfl
    · exact absurd hz (hinv0.1.mp hpc).2.2

set_option maxRecDepth 100000 in
/-- Witness for C7: a running timer unmounted mid-countdown, and a timer
that ran to zero. -/
theorem timer_no_dangling_callback_witness :
    (timerRun ([TimerEv.start] ++ [.unmount])).pending = false
    ∧ timerRun ([TimerEv.start] ++ .unmount :: [.tick, .start])
        = timerRun ([TimerEv.start] ++ [.unmount])
    ∧ (timerStep (timerRun [TimerEv.start]) .pause).pending = false
    ∧ (timerStep (timerRun [TimerEv.start]) .reset).pending = false
    ∧ (timerRun (TimerEv.start :: List.replicate 60 .tick)).pending = false :=
  timer_no_dangling_callback [TimerEv.start]
    (TimerEv.start :: List.replicate 60 .tick) [.tick, .start] (by decide)

/-- C9 counterexample: the first slide's title is parsed with the short
label before the em-dash, but its rendered jump-grid subtitle is the
literal string "Section", not the text after the em-dash as the claim
states. -/
theorem jump_grid_subtitle_counterexample :
    "Section 1 — Foundations (FMM, Principles, Objectives)" ∈ slideTitles
    ∧ jumpSubtitle "Section 1 — Foundations (FMM, Principles, Objectives)"
        = some "Section"
    ∧ specSubtitle "Section 1 — Foundations (FMM, Principles, Objectives)"
        = some "Foundations (FMM, Principles, Objectives)"
    ∧ jumpSubtitle "Section 1 — Foundations (FMM, Principles, Objectives)"
        ≠ specSubtitle "Section 1 — Foundations (FMM, Principles, Objectives)" := by
  decide

/-- C9 (amended): for every slide of the deck, the jump-grid short label
is the text before the first em-dash separator of the title; the subtitle
is the text after the separator when the title contains "Slide", and is
the literal string "Section" otherwise. -/
theorem jump_grid_title_parsing :
    ∀ t ∈ slideTitles,
      jumpLabel t = specLabel t
      ∧ jumpSubtitle t
          = (if hasSubstring "Slide".data t.data then specSubtitle t
             else some "Section") := by
  decide

/-- Witness for C9 on a content slide's title. -/
theorem jump_grid_title_parsing_witness :
    jumpLabel "Slide 1 — Title & Session Map"
        = specLabel "Slide 1 — Title & Session Map"
    ∧ jumpSubtitle "Slide 1 — Title & Session Map"
        = (if hasSubstring "Slide".data "Slide 1 — Title & Session Map".data
           then specSubtitle "Slide 1 — Title & Session Map"
           else some "Section") :=
  jump_grid_title_parsing "Slide 1 — Title & Session Map" (by decide)

end DeckProgram
